import Mathlib

/-!
A shallow embedding of the Binance order-book logger and replayer
(`biance_orderbook_logger.py` and `reconstruct_orderbook.py`).

Conventions of the embedding:
* Python `Decimal` prices/quantities are embedded as `ℚ` (exact arithmetic).
* A Python `dict` side of the book is embedded as an association list
  `List (ℚ × ℚ)` with unique keys, mutated by `setLevel` (assignment,
  replacing an existing key in place or appending a new one) and `popLevel`
  (`dict.pop(price, None)`).
* The stateful tracker methods become functions on explicit state records.
* File output becomes an explicit `written` list carried in the state.
-/

namespace BinanceOFI

/-- A `depthUpdate` diff event.  `U` is the first update id of the event,
`u` the final update id, `b` the bid changes and `a` the ask changes
(price, quantity pairs), as in the Binance payload. -/
structure DiffEvent where
  U : Nat
  u : Nat
  b : List (ℚ × ℚ)
  a : List (ℚ × ℚ)
deriving DecidableEq

/-- A REST depth snapshot: `lastUpdateId` plus full bid and ask levels. -/
structure Snapshot where
  lastUpdateId : Nat
  bids : List (ℚ × ℚ)
  asks : List (ℚ × ℚ)
deriving DecidableEq

/-! ### Order-book side operations (`reconstruct_orderbook.py`, `OrderBook`) -/

/-- Lookup of a price in one side of the book (`book_side[price]`). -/
def lookupLevel : List (ℚ × ℚ) → ℚ → Option ℚ
  | [], _ => none
  | kv :: rest, p => if kv.1 = p then some kv.2 else lookupLevel rest p

/-- `book_side[price] = qty`: replace the entry for `price` in place if
present, otherwise append it (Python dict insertion-order semantics). -/
def setLevel : List (ℚ × ℚ) → ℚ → ℚ → List (ℚ × ℚ)
  | [], p, q => [(p, q)]
  | kv :: rest, p, q => if kv.1 = p then (p, q) :: rest else kv :: setLevel rest p q

/-- `book_side.pop(price, None)`: drop the entry for `price` if present
(keys are unique in a dict, so at most one entry is dropped). -/
def popLevel : List (ℚ × ℚ) → ℚ → List (ℚ × ℚ)
  | [], _ => []
  | kv :: rest, p => if kv.1 = p then popLevel rest p else kv :: popLevel rest p

/-- `OrderBook._update_level`: quantity 0 removes the level, any other
quantity is assigned (overwriting). -/
def updateLevel (side : List (ℚ × ℚ)) (p q : ℚ) : List (ℚ × ℚ) :=
  if q = 0 then popLevel side p else setLevel side p q

/-- `OrderBook._levels_to_dict`: build a fresh side keeping only strictly
positive quantities. -/
def levelsToDict (levels : List (ℚ × ℚ)) : List (ℚ × ℚ) :=
  levels.foldl (fun acc pq => if pq.2 > 0 then setLevel acc pq.1 pq.2 else acc) []

/-- In-memory order book: bid side and ask side. -/
structure OrderBook where
  bids : List (ℚ × ℚ)
  asks : List (ℚ × ℚ)
deriving DecidableEq

/-- `OrderBook.load_snapshot`: wholesale replacement of both sides. -/
def loadSnapshot (s : Snapshot) : OrderBook :=
  ⟨levelsToDict s.bids, levelsToDict s.asks⟩

/-- Apply one side's list of diff changes in order. -/
def applySide (ups : List (ℚ × ℚ)) (side : List (ℚ × ℚ)) : List (ℚ × ℚ) :=
  ups.foldl (fun acc pq => updateLevel acc pq.1 pq.2) side

/-- `OrderBook.apply_diff`: apply the bid changes to the bid side and the
ask changes to the ask side. -/
def applyDiff (book : OrderBook) (e : DiffEvent) : OrderBook :=
  ⟨applySide e.b book.bids, applySide e.a book.asks⟩

/-- Bid display order: descending by price (`reverse=True`). -/
def bidOrder (x y : ℚ × ℚ) : Prop := y.1 ≤ x.1

/-- Ask display order: ascending by price. -/
def askOrder (x y : ℚ × ℚ) : Prop := x.1 ≤ y.1

instance : DecidableRel bidOrder := fun x y => inferInstanceAs (Decidable (y.1 ≤ x.1))

instance : DecidableRel askOrder := fun x y => inferInstanceAs (Decidable (x.1 ≤ y.1))

instance : IsTotal (ℚ × ℚ) bidOrder := ⟨fun x y => le_total y.1 x.1⟩

instance : IsTotal (ℚ × ℚ) askOrder := ⟨fun x y => le_total x.1 y.1⟩

instance : IsTrans (ℚ × ℚ) bidOrder := ⟨fun _ _ _ h1 h2 => le_trans h2 h1⟩

instance : IsTrans (ℚ × ℚ) askOrder := ⟨fun _ _ _ h1 h2 => le_trans h1 h2⟩

/-- `OrderBook.top_levels`: bids sorted descending by price, asks sorted
ascending by price, each truncated to `depth` entries. -/
def topLevels (book : OrderBook) (depth : Nat) : List (ℚ × ℚ) × List (ℚ × ℚ) :=
  ((book.bids.insertionSort bidOrder).take depth,
   (book.asks.insertionSort askOrder).take depth)

/-! ### Replay engine (`reconstruct_orderbook.py`, `replay_diffs`) -/

/-- A persisted record of the JSONL log: a tagged snapshot or diff. -/
inductive Rec where
  | snap (s : Snapshot)
  | diff (e : DiffEvent)
deriving DecidableEq

/-- Number of diff records in a log. -/
def diffCount : List Rec → Nat
  | [] => 0
  | .snap _ :: rest => diffCount rest
  | .diff _ :: rest => diffCount rest + 1

/-- The loop body of `replay_diffs`: walk the records, loading snapshots and
applying diffs, counting applied diffs and breaking once
`event_limit and events_applied >= event_limit` (Python truthiness: a limit
of 0 means no cap).  Returns the book and the applied-diff count. -/
def replayCore (limit : Nat) : List Rec → OrderBook → Nat → OrderBook × Nat
  | [], book, applied => (book, applied)
  | .snap s :: rest, _, applied => replayCore limit rest (loadSnapshot s) applied
  | .diff e :: rest, book, applied =>
      if limit ≠ 0 ∧ applied + 1 ≥ limit then (applyDiff book e, applied + 1)
      else replayCore limit rest (applyDiff book e) (applied + 1)

/-- The book every replay starts from (`OrderBook()`). -/
def emptyBook : OrderBook := ⟨[], []⟩

/-- The message of the `RuntimeError` raised on an empty replay. -/
def emptyReplayMsg : String := "No diff events were applied. Ensure the file contains data."

/-- `replay_diffs`: replay the whole log and fail if no diff was applied. -/
def replayDiffs (log : List Rec) (limit : Nat) : Except String OrderBook :=
  let r := replayCore limit log emptyBook 0
  if r.2 = 0 then .error emptyReplayMsg else .ok r.1

/-! ### Tracker diff validation (`biance_orderbook_logger.py`, `_process_diff`) -/

/-- The tracker state that `_process_diff` reads and writes:
the snapshot's `lastUpdateId` (set before any diff is processed),
`last_final_update_id` (`None` until a first diff is applied this sync
attempt), and the diff records written to the output file. -/
structure TrackerState where
  snapshotLastUpdateId : Nat
  lastFinalUpdateId : Option Nat
  written : List DiffEvent
deriving DecidableEq

/-- What `_process_diff` did with an event. -/
inductive DiffOutcome where
  | skipped
  | accepted
  | resynced
deriving DecidableEq

/-- The state clearing performed by `_resync` (the buffer and readiness
flag live outside this state; the output file is not cleared). -/
def resyncClear (s : TrackerState) : TrackerState :=
  { s with lastFinalUpdateId := none }

/-- `_process_diff`:
1. skip events with `u <= snapshot_last_update_id`;
2. first event (no `last_final_update_id`): require
   `U <= lastUpdateId + 1` and `u >= lastUpdateId + 1`, else resync;
3. later events: require `U == last_final_update_id + 1` exactly, else
   resync;
4. on acceptance write the diff and set `last_final_update_id = u`. -/
def processDiff (s : TrackerState) (e : DiffEvent) : TrackerState × DiffOutcome :=
  if e.u ≤ s.snapshotLastUpdateId then
    (s, .skipped)
  else
    match s.lastFinalUpdateId with
    | none =>
        if ¬ (e.U ≤ s.snapshotLastUpdateId + 1 ∧ s.snapshotLastUpdateId + 1 ≤ e.u) then
          (resyncClear s, .resynced)
        else
          ({ s with written := s.written ++ [e], lastFinalUpdateId := some e.u }, .accepted)
    | some lastFinal =>
        if e.U ≠ lastFinal + 1 then
          (resyncClear s, .resynced)
        else
          ({ s with written := s.written ++ [e], lastFinalUpdateId := some e.u }, .accepted)

/-! ### Session lifecycle around the snapshot fetch
(`biance_orderbook_logger.py`, `_get_initial_snapshot` and `stop`) -/

/-- Result of `requests.get` on the snapshot endpoint: either a parsed
snapshot or a `RequestException` (transport error). -/
inductive FetchResult where
  | ok (snap : Snapshot)
  | transportError
deriving DecidableEq

/-- The session-level state touched by `_get_initial_snapshot` and `stop`:
the stored snapshot id, the `is_running` flag that keeps the session loops
alive, the snapshot-readiness flag, and the snapshot records written. -/
structure SessionState where
  snapshotLastUpdateId : Option Nat
  isRunning : Bool
  snapshotReady : Bool
  writtenSnapshots : List Snapshot
deriving DecidableEq

/-- `stop`: clears `is_running`, which ends both the websocket loop and the
main `while self.is_running` loop, and closes the output file. -/
def stopTracker (s : SessionState) : SessionState :=
  { s with isRunning := false }

/-- `_get_initial_snapshot`: on success store `lastUpdateId` and persist
the snapshot; on a `RequestException` log the error and call `stop`. -/
def getInitialSnapshot (s : SessionState) (r : FetchResult) : SessionState :=
  match r with
  | .ok snap =>
      { s with snapshotLastUpdateId := some snap.lastUpdateId,
               writtenSnapshots := s.writtenSnapshots ++ [snap] }
  | .transportError => stopTracker s

/-! ### Lemmas about single-level updates -/

theorem lookupLevel_setLevel (s : List (ℚ × ℚ)) (p q r : ℚ) :
    lookupLevel (setLevel s p q) r = if r = p then some q else lookupLevel s r := by
  induction s with
  | nil =>
      by_cases h : r = p
      · simp [setLevel, lookupLevel, h]
      · simp [setLevel, lookupLevel, h, Ne.symm h]
  | cons kv rest ih =>
      by_cases hk : kv.1 = p
      · by_cases hr : r = p
        · simp [setLevel, lookupLevel, hk, hr]
        · simp [setLevel, lookupLevel, hk, hr, Ne.symm hr]
      · by_cases hkr : kv.1 = r
        · have hrp : ¬ r = p := fun h2 => hk (hkr.trans h2)
          simp [setLevel, lookupLevel, hk, hkr, hrp]
        · simp [setLevel, lookupLevel, hk, hkr, ih]

theorem lookupLevel_popLevel (s : List (ℚ × ℚ)) (p r : ℚ) :
    lookupLevel (popLevel s p) r = if r = p then none else lookupLevel s r := by
  induction s with
  | nil => by_cases h : r = p <;> simp [popLevel, lookupLevel, h]
  | cons kv rest ih =>
      by_cases hk : kv.1 = p
      · by_cases hr : r = p
        · subst hr
          simp [popLevel, hk, ih]
        · have hkr : ¬ kv.1 = r := fun h2 => hr (h2.symm.trans hk)
          simp [popLevel, lookupLevel, hk, hr, hkr, Ne.symm hr, ih]
      · by_cases hkr : kv.1 = r
        · have hrp : ¬ r = p := fun h2 => hk (hkr.trans h2)
          simp [popLevel, lookupLevel, hk, hkr, hrp]
        · simp [popLevel, lookupLevel, hk, hkr, ih]

theorem popLevel_absent (s : List (ℚ × ℚ)) (p : ℚ) (h : lookupLevel s p = none) :
    popLevel s p = s := by
  induction s with
  | nil => rfl
  | cons kv rest ih =>
      by_cases hk : kv.1 = p
      · simp [lookupLevel, hk] at h
      · simp [lookupLevel, hk] at h
        simp [popLevel, hk, ih h]

theorem lookupLevel_updateLevel (s : List (ℚ × ℚ)) (p q r : ℚ) :
    lookupLevel (updateLevel s p q) r =
      if r = p then (if q = 0 then none else some q) else lookupLevel s r := by
  by_cases hq : q = 0
  · simp [updateLevel, hq, lookupLevel_popLevel]
  · simp [updateLevel, hq, lookupLevel_setLevel]

theorem applySide_nil (side : List (ℚ × ℚ)) : applySide [] side = side := rfl

theorem applySide_cons (pq : ℚ × ℚ) (ups : List (ℚ × ℚ)) (side : List (ℚ × ℚ)) :
    applySide (pq :: ups) side = applySide ups (updateLevel side pq.1 pq.2) := rfl

/-- The net effect of a list of diff changes on one price: `none` when the
price is untouched, `some w` when the last change at that price leaves the
stored quantity `w` (`w = none` meaning removed). -/
def diffEffect : List (ℚ × ℚ) → ℚ → Option (Option ℚ)
  | [], _ => none
  | pq :: rest, r =>
      match diffEffect rest r with
      | some w => some w
      | none => if r = pq.1 then some (if pq.2 = 0 then none else some pq.2) else none

theorem lookupLevel_applySide (ups : List (ℚ × ℚ)) (side : List (ℚ × ℚ)) (r : ℚ) :
    lookupLevel (applySide ups side) r = (diffEffect ups r).getD (lookupLevel side r) := by
  induction ups generalizing side with
  | nil => rfl
  | cons pq rest ih =>
      rw [applySide_cons, ih, lookupLevel_updateLevel]
      cases h : diffEffect rest r with
      | some w => simp [diffEffect, h]
      | none =>
          by_cases hr : r = pq.1
          · subst hr
            simp [diffEffect, h]
          · simp [diffEffect, h, hr]

/-- Extensional equality of book sides, i.e. Python dict equality. -/
def sideEquiv (s t : List (ℚ × ℚ)) : Prop :=
  ∀ p, lookupLevel s p = lookupLevel t p

/-- Extensional equality of whole books. -/
def bookEquiv (x y : OrderBook) : Prop :=
  sideEquiv x.bids y.bids ∧ sideEquiv x.asks y.asks

/-! ### Positivity of stored quantities -/

/-- Every quantity stored in a side is strictly positive. -/
def sidePos (s : List (ℚ × ℚ)) : Prop := ∀ kv ∈ s, 0 < kv.2

/-- Every quantity stored in the book is strictly positive. -/
def bookPos (b : OrderBook) : Prop := sidePos b.bids ∧ sidePos b.asks

theorem sidePos_setLevel {s : List (ℚ × ℚ)} {q : ℚ} (p : ℚ)
    (hs : sidePos s) (hq : 0 < q) : sidePos (setLevel s p q) := by
  induction s with
  | nil =>
      intro kv hkv
      simp [setLevel] at hkv
      simp [hkv, hq]
  | cons kv0 rest ih =>
      intro kv hkv
      by_cases hk : kv0.1 = p
      · simp [setLevel, hk] at hkv
        rcases hkv with h | h
        · simp [h, hq]
        · exact hs kv (List.mem_cons_of_mem _ h)
      · simp [setLevel, hk] at hkv
        rcases hkv with h | h
        · exact hs kv (h ▸ List.mem_cons_self _ _)
        · exact ih (fun z hz => hs z (List.mem_cons_of_mem _ hz)) kv h

theorem mem_popLevel {s : List (ℚ × ℚ)} {p : ℚ} {kv : ℚ × ℚ}
    (h : kv ∈ popLevel s p) : kv ∈ s := by
  induction s with
  | nil => simp [popLevel] at h
  | cons kv0 rest ih =>
      by_cases hk : kv0.1 = p
      · simp [popLevel, hk] at h
        exact List.mem_cons_of_mem _ (ih h)
      · simp [popLevel, hk] at h
        rcases h with h | h
        · exact h ▸ List.mem_cons_self _ _
        · exact List.mem_cons_of_mem _ (ih h)

theorem sidePos_updateLevel {s : List (ℚ × ℚ)} {q : ℚ} (p : ℚ)
    (hs : sidePos s) (hq : 0 ≤ q) : sidePos (updateLevel s p q) := by
  by_cases h0 : q = 0
  · intro kv hkv
    exact hs kv (mem_popLevel (by simpa [updateLevel, h0] using hkv))
  · have : 0 < q := lt_of_le_of_ne hq (Ne.symm h0)
    intro kv hkv
    exact sidePos_setLevel p hs this kv (by simpa [updateLevel, h0] using hkv)

theorem sidePos_applySide {ups side : List (ℚ × ℚ)}
    (hs : sidePos side) (hups : ∀ pq ∈ ups, 0 ≤ pq.2) : sidePos (applySide ups side) := by
  induction ups generalizing side with
  | nil => exact hs
  | cons pq rest ih =>
      rw [applySide_cons]
      exact ih (sidePos_updateLevel pq.1 hs (hups pq (List.mem_cons_self _ _)))
        (fun z hz => hups z (List.mem_cons_of_mem _ hz))

theorem sidePos_levelsToDict_aux (levels acc : List (ℚ × ℚ)) (hacc : sidePos acc) :
    sidePos (levels.foldl
      (fun acc pq => if pq.2 > 0 then setLevel acc pq.1 pq.2 else acc) acc) := by
  induction levels generalizing acc with
  | nil => exact hacc
  | cons pq rest ih =>
      rw [List.foldl_cons]
      by_cases hq : pq.2 > 0
      · simp only [hq, if_pos]
        exact ih _ (sidePos_setLevel pq.1 hacc hq)
      · simp only [hq, if_neg, if_false]
        exact ih _ hacc

theorem sidePos_levelsToDict (levels : List (ℚ × ℚ)) : sidePos (levelsToDict levels) :=
  sidePos_levelsToDict_aux levels [] (by intro kv hkv; simp at hkv)

/-! ### Replay lemmas -/

theorem replayCore_count {limit : Nat} :
    ∀ (log : List Rec) (book : OrderBook) (applied : Nat), applied < limit →
      (replayCore limit log book applied).2 = min limit (applied + diffCount log) := by
  intro log
  induction log with
  | nil =>
      intro book applied h
      simp [replayCore, diffCount]
      omega
  | cons r rest ih =>
      intro book applied h
      cases r with
      | snap s =>
          rw [replayCore, ih (loadSnapshot s) applied h]
          simp [diffCount]
      | diff e =>
          have hne : limit ≠ 0 := by omega
          by_cases hb : applied + 1 ≥ limit
          · rw [replayCore, if_pos ⟨hne, hb⟩]
            simp [diffCount]
            omega
          · rw [replayCore, if_neg (by
              intro hc
              exact hb hc.2)]
            rw [ih (applyDiff book e) (applied + 1) (by omega)]
            simp [diffCount]
            omega

theorem replayCore_count_nolimit :
    ∀ (log : List Rec) (book : OrderBook) (applied : Nat),
      (replayCore 0 log book applied).2 = applied + diffCount log := by
  intro log
  induction log with
  | nil => intro book applied; simp [replayCore, diffCount]
  | cons r rest ih =>
      intro book applied
      cases r with
      | snap s =>
          rw [replayCore, ih (loadSnapshot s) applied]
          simp [diffCount]
      | diff e =>
          rw [replayCore, if_neg (by
            intro hc
            exact hc.1 rfl)]
          rw [ih (applyDiff book e) (applied + 1)]
          simp [diffCount]
          omega

theorem replayCore_applied_zero_iff (log : List Rec) (limit : Nat) :
    (replayCore limit log emptyBook 0).2 = 0 ↔ diffCount log = 0 := by
  cases limit with
  | zero =>
      rw [replayCore_count_nolimit log emptyBook 0]
      omega
  | succ k =>
      rw [replayCore_count log emptyBook 0 (Nat.succ_pos k)]
      omega

theorem replayCore_stops_at_cap {limit : Nat} :
    ∀ (preRecs post : List Rec) (book : OrderBook) (applied : Nat),
      applied < limit → limit ≤ applied + diffCount preRecs →
      replayCore limit (preRecs ++ post) book applied = replayCore limit preRecs book applied := by
  intro preRecs
  induction preRecs with
  | nil =>
      intro post book applied h1 h2
      simp [diffCount] at h2
      omega
  | cons r rest ih =>
      intro post book applied h1 h2
      cases r with
      | snap s =>
          rw [List.cons_append, replayCore, replayCore]
          exact ih post (loadSnapshot s) applied h1 (by simpa [diffCount] using h2)
      | diff e =>
          have hne : limit ≠ 0 := by omega
          by_cases hb : applied + 1 ≥ limit
          · rw [List.cons_append, replayCore, if_pos ⟨hne, hb⟩,
              replayCore, if_pos ⟨hne, hb⟩]
          · rw [List.cons_append, replayCore, if_neg (by
              intro hc
              exact hb hc.2),
              replayCore, if_neg (by
              intro hc
              exact hb hc.2)]
            refine ih post (applyDiff book e) (applied + 1) (by omega) ?_
            simp [diffCount] at h2
            omega

/-! ### Claim theorems -/

/-- Claim C1: while no diff has yet been applied this sync attempt
(`last_final_update_id` unset) and the event's final id exceeds the
snapshot's `lastUpdateId` `L`, `_process_diff` accepts the event — writes
it and sets `last_final_update_id` to its final id — exactly when
`U ≤ L + 1` and `u ≥ L + 1`; otherwise it triggers a resync and does not
apply the event. -/
theorem C1_first_event_rule (s : TrackerState) (e : DiffEvent)
    (hfirst : s.lastFinalUpdateId = none)
    (hnew : s.snapshotLastUpdateId < e.u) :
    ((processDiff s e).2 = .accepted ↔
       (e.U ≤ s.snapshotLastUpdateId + 1 ∧ s.snapshotLastUpdateId + 1 ≤ e.u))
    ∧ (e.U ≤ s.snapshotLastUpdateId + 1 ∧ s.snapshotLastUpdateId + 1 ≤ e.u →
       processDiff s e =
         ({ s with written := s.written ++ [e], lastFinalUpdateId := some e.u }, .accepted))
    ∧ (¬ (e.U ≤ s.snapshotLastUpdateId + 1 ∧ s.snapshotLastUpdateId + 1 ≤ e.u) →
       processDiff s e = (resyncClear s, .resynced)) := by
  have hskip : ¬ e.u ≤ s.snapshotLastUpdateId := not_le.mpr hnew
  by_cases hc : e.U ≤ s.snapshotLastUpdateId + 1 ∧ s.snapshotLastUpdateId + 1 ≤ e.u
  · simp [processDiff, hskip, hfirst, hc]
  · simp [processDiff, hskip, hfirst, hc]

/-- Witness for C1 at `L = 150` and a first diff `151–155`, which is
accepted, written, and sets `last_final_update_id = 155`. -/
theorem C1_first_event_rule_witness :
    processDiff ⟨150, none, []⟩ ⟨151, 155, [], []⟩ =
      (⟨150, some 155, [⟨151, 155, [], []⟩]⟩, .accepted) :=
  (C1_first_event_rule ⟨150, none, []⟩ ⟨151, 155, [], []⟩ rfl (by decide)).2.1 (by decide)

/-- Claim C2 fails on the code: with snapshot `lastUpdateId = 150` and no
diff yet applied, a first diff with `U = 152`, `u = 155` is NOT accepted —
`152 ≤ 151` fails the first-event check, so `_process_diff` resyncs and
writes nothing. -/
theorem C2_counterexample :
    processDiff ⟨150, none, []⟩ ⟨152, 155, [], []⟩ = (⟨150, none, []⟩, .resynced)
    ∧ (processDiff ⟨150, none, []⟩ ⟨152, 155, [], []⟩).2 ≠ .accepted := by
  exact ⟨rfl, by decide⟩

/-- Claim C2 (amended): with snapshot `lastUpdateId = 150` and no diff yet
applied, a first diff with `U = 152`, `u = 155` triggers a resync and is
not applied (the first-event rule requires `U ≤ 151`); a first diff with
`U = 151`, `u = 155` is accepted, and a second diff in the same session is
then accepted exactly when it chains from 155, i.e. has `U = 156`. -/
theorem C2_amended_straddle (e2 : DiffEvent) (h2 : 150 < e2.u) :
    processDiff ⟨150, none, []⟩ ⟨152, 155, [], []⟩ = (⟨150, none, []⟩, .resynced)
    ∧ processDiff ⟨150, none, []⟩ ⟨151, 155, [], []⟩ =
        (⟨150, some 155, [⟨151, 155, [], []⟩]⟩, .accepted)
    ∧ ((processDiff ⟨150, some 155, [⟨151, 155, [], []⟩]⟩ e2).2 = .accepted ↔ e2.U = 156) := by
  refine ⟨rfl, rfl, ?_⟩
  have hskip : ¬ e2.u ≤ 150 := not_le.mpr h2
  by_cases hc : e2.U = 156
  · simp [processDiff, hskip, hc]
  · simp [processDiff, hskip, hc]

/-- Witness for the amended C2: the chained second diff `156–160` is
accepted after the first diff `151–155`. -/
theorem C2_amended_straddle_witness :
    (processDiff ⟨150, some 155, [⟨151, 155, [], []⟩]⟩ ⟨156, 160, [], []⟩).2 = .accepted :=
  ((C2_amended_straddle ⟨156, 160, [], []⟩ (by decide)).2.2).mpr rfl

/-- Claim C3: once a diff has been applied this sync attempt
(`last_final_update_id = lf`) and the event's final id exceeds the
snapshot's `lastUpdateId`, the event is accepted exactly when
`U = lf + 1`; any other value triggers a resync and the event is not
applied.  In particular with `lf = 100` a diff with `U = 102` resyncs. -/
theorem C3_subsequent_chain_rule (s : TrackerState) (e : DiffEvent) (lf : Nat)
    (hprev : s.lastFinalUpdateId = some lf)
    (hnew : s.snapshotLastUpdateId < e.u) :
    ((processDiff s e).2 = .accepted ↔ e.U = lf + 1)
    ∧ (e.U = lf + 1 →
        processDiff s e =
          ({ s with written := s.written ++ [e], lastFinalUpdateId := some e.u }, .accepted))
    ∧ (e.U ≠ lf + 1 → processDiff s e = (resyncClear s, .resynced))
    ∧ processDiff ⟨50, some 100, []⟩ ⟨102, 110, [], []⟩ = (⟨50, none, []⟩, .resynced) := by
  have hskip : ¬ e.u ≤ s.snapshotLastUpdateId := not_le.mpr hnew
  by_cases hc : e.U = lf + 1
  · simp [processDiff, hskip, hprev, hc]
    rfl
  · simp [processDiff, hskip, hprev, hc]
    rfl

/-- Witness for C3: with `last_final_update_id = 100`, the diff `101–110`
chains exactly and is accepted. -/
theorem C3_subsequent_chain_rule_witness :
    processDiff ⟨50, some 100, []⟩ ⟨101, 110, [], []⟩ =
      (⟨50, some 110, [⟨101, 110, [], []⟩]⟩, .accepted) :=
  (C3_subsequent_chain_rule ⟨50, some 100, []⟩ ⟨101, 110, [], []⟩ 100 rfl (by decide)).2.1 rfl

/-- Claim C4: `_update_level` with quantity 0 removes the price (its
lookup becomes `none`) and is a no-op when the price is absent (the side
is returned unchanged, never an error); with quantity `q > 0` it sets the
quantity at that price, overwriting any prior value, and it never touches
other prices. -/
theorem C4_updateLevel_spec (side : List (ℚ × ℚ)) (p q r : ℚ) :
    lookupLevel (updateLevel side p 0) p = none
    ∧ (lookupLevel side p = none → updateLevel side p 0 = side)
    ∧ (r ≠ p → lookupLevel (updateLevel side p q) r = lookupLevel side r)
    ∧ (0 < q → lookupLevel (updateLevel side p q) p = some q) := by
  refine ⟨?_, ?_, ?_, ?_⟩
  · simp [lookupLevel_updateLevel]
  · intro h
    simp [updateLevel, popLevel_absent side p h]
  · intro h
    simp [lookupLevel_updateLevel, h]
  · intro h
    simp [lookupLevel_updateLevel, ne_of_gt h]

/-- Witness for C4 at a one-level side `[(2, 3)]`. -/
theorem C4_updateLevel_spec_witness :
    lookupLevel (updateLevel [((2 : ℚ), (3 : ℚ))] 2 0) 2 = none
    ∧ updateLevel [((2 : ℚ), (3 : ℚ))] 7 0 = [((2 : ℚ), (3 : ℚ))]
    ∧ lookupLevel (updateLevel [((2 : ℚ), (3 : ℚ))] 2 5) 7 = lookupLevel [((2 : ℚ), (3 : ℚ))] 7
    ∧ lookupLevel (updateLevel [((2 : ℚ), (3 : ℚ))] 2 5) 2 = some 5 :=
  ⟨(C4_updateLevel_spec [((2 : ℚ), (3 : ℚ))] 2 5 7).1,
   (C4_updateLevel_spec [((2 : ℚ), (3 : ℚ))] 7 5 2).2.1 (by decide),
   (C4_updateLevel_spec [((2 : ℚ), (3 : ℚ))] 2 5 7).2.2.1 (by decide),
   (C4_updateLevel_spec [((2 : ℚ), (3 : ℚ))] 2 5 7).2.2.2 (by decide)⟩

/-- Claim C5: every stored quantity is strictly positive: a loaded
snapshot stores only strictly positive quantities, applying a diff whose
quantities are non-negative (as all Binance quantities are) preserves the
invariant, and `_update_level` never leaves quantity 0 at the price it
touches. -/
theorem C5_positive_invariant :
    (∀ s : Snapshot, bookPos (loadSnapshot s))
    ∧ (∀ (book : OrderBook) (e : DiffEvent), bookPos book →
        (∀ pq ∈ e.b, 0 ≤ pq.2) → (∀ pq ∈ e.a, 0 ≤ pq.2) → bookPos (applyDiff book e))
    ∧ (∀ (side : List (ℚ × ℚ)) (p q : ℚ), lookupLevel (updateLevel side p q) p ≠ some 0) := by
  refine ⟨?_, ?_, ?_⟩
  · intro s
    exact ⟨sidePos_levelsToDict s.bids, sidePos_levelsToDict s.asks⟩
  · intro book e hbook hb ha
    exact ⟨sidePos_applySide hbook.1 hb, sidePos_applySide hbook.2 ha⟩
  · intro side p q
    rw [lookupLevel_updateLevel]
    by_cases h0 : q = 0
    · simp [h0]
    · simp [h0]

/-- Witness for C5: a concrete snapshot load followed by a concrete diff
(with a level removal) keeps all stored quantities positive. -/
theorem C5_positive_invariant_witness :
    bookPos (applyDiff (loadSnapshot ⟨1, [(5, 2)], [(9, 4)]⟩) ⟨2, 3, [(6, 3)], [(9, 0)]⟩) :=
  C5_positive_invariant.2.1 (loadSnapshot ⟨1, [(5, 2)], [(9, 4)]⟩) ⟨2, 3, [(6, 3)], [(9, 0)]⟩
    (C5_positive_invariant.1 ⟨1, [(5, 2)], [(9, 4)]⟩) (by decide) (by decide)

/-- Claim C6: applying the same diff event twice in immediate succession
yields the same book state (dict equality, i.e. the same stored levels) as
applying it once — overwrite semantics, not accumulation. -/
theorem C6_applyDiff_idempotent (book : OrderBook) (e : DiffEvent) :
    bookEquiv (applyDiff (applyDiff book e) e) (applyDiff book e) := by
  refine ⟨fun p => ?_, fun p => ?_⟩
  · show lookupLevel (applySide e.b (applySide e.b book.bids)) p =
      lookupLevel (applySide e.b book.bids) p
    rw [lookupLevel_applySide, lookupLevel_applySide]
    cases diffEffect e.b p <;> rfl
  · show lookupLevel (applySide e.a (applySide e.a book.asks)) p =
      lookupLevel (applySide e.a book.asks) p
    rw [lookupLevel_applySide, lookupLevel_applySide]
    cases diffEffect e.a p <;> rfl

/-- Claim C7: `top_levels` returns the `n` highest-priced bid levels in
descending price order and the `n` lowest-priced ask levels in ascending
price order: each returned side is sorted, has length `min n` (side size),
and the remaining levels are all on the far side of every returned level;
in particular over bids `{100:1, 99:2, 101:1/2}` it returns
`[(101, 1/2), (100, 1)]`, excluding price 99. -/
theorem C7_topLevels_spec :
    (∀ (book : OrderBook) (n : Nat),
      List.Sorted bidOrder (topLevels book n).1
      ∧ List.Sorted askOrder (topLevels book n).2
      ∧ (topLevels book n).1.length = min n book.bids.length
      ∧ (topLevels book n).2.length = min n book.asks.length
      ∧ (∃ restB, ((topLevels book n).1 ++ restB).Perm book.bids
          ∧ ∀ x ∈ (topLevels book n).1, ∀ y ∈ restB, y.1 ≤ x.1)
      ∧ (∃ restA, ((topLevels book n).2 ++ restA).Perm book.asks
          ∧ ∀ x ∈ (topLevels book n).2, ∀ y ∈ restA, x.1 ≤ y.1))
    ∧ topLevels ⟨[(100, 1), (99, 2), (101, 1/2)], []⟩ 2 = ([(101, 1/2), (100, 1)], []) := by
  constructor
  · intro book n
    refine ⟨?_, ?_, ?_, ?_, ?_, ?_⟩
    · exact List.Pairwise.sublist (List.take_sublist n _)
        (List.sorted_insertionSort bidOrder book.bids)
    · exact List.Pairwise.sublist (List.take_sublist n _)
        (List.sorted_insertionSort askOrder book.asks)
    · simp [topLevels]
    · simp [topLevels]
    · refine ⟨(book.bids.insertionSort bidOrder).drop n, ?_, ?_⟩
      · rw [show (topLevels book n).1 = (book.bids.insertionSort bidOrder).take n from rfl,
          List.take_append_drop]
        exact List.perm_insertionSort bidOrder book.bids
      · have hs := List.sorted_insertionSort bidOrder book.bids
        rw [← List.take_append_drop n (book.bids.insertionSort bidOrder)] at hs
        exact (List.pairwise_append.mp hs).2.2
    · refine ⟨(book.asks.insertionSort askOrder).drop n, ?_, ?_⟩
      · rw [show (topLevels book n).2 = (book.asks.insertionSort askOrder).take n from rfl,
          List.take_append_drop]
        exact List.perm_insertionSort askOrder book.asks
      · have hs := List.sorted_insertionSort askOrder book.asks
        rw [← List.take_append_drop n (book.asks.insertionSort askOrder)] at hs
        exact (List.pairwise_append.mp hs).2.2
  · rfl

/-- Claim C8: with a positive diff cap, replay applies exactly
`min cap (number of diffs)` diff records, everything after the record
where the cap is reached is ignored, and in particular a cap of 1 over
`[snapshot, diff1, diff2]` applies only `diff1`. -/
theorem C8_replay_cap :
    (∀ (log : List Rec) (limit : Nat), 0 < limit →
       (replayCore limit log emptyBook 0).2 = min limit (diffCount log))
    ∧ (∀ (preRecs post : List Rec) (limit : Nat), 0 < limit → limit ≤ diffCount preRecs →
       replayDiffs (preRecs ++ post) limit = replayDiffs preRecs limit)
    ∧ replayDiffs [Rec.snap ⟨1, [(10, 1)], []⟩,
        Rec.diff ⟨2, 3, [(11, 2)], []⟩, Rec.diff ⟨4, 5, [(12, 3)], []⟩] 1 =
      .ok ⟨[(10, 1), (11, 2)], []⟩ := by
  refine ⟨?_, ?_, ?_⟩
  · intro log limit h
    rw [replayCore_count log emptyBook 0 h]
    simp
  · intro preRecs post limit h1 h2
    show (if (replayCore limit (preRecs ++ post) emptyBook 0).2 = 0 then _ else _) = _
    rw [replayCore_stops_at_cap preRecs post emptyBook 0 h1 (by omega)]
    rfl
  · rfl

/-- Witness for C8: the applied-diff count of a capped replay over two
diffs is `min 1 2 = 1`, and a log truncated at the cap replays
identically to the full log. -/
theorem C8_replay_cap_witness :
    (replayCore 1 [Rec.diff ⟨2, 3, [], []⟩, Rec.diff ⟨4, 5, [], []⟩] emptyBook 0).2 = 1
    ∧ replayDiffs ([Rec.diff ⟨2, 3, [], []⟩] ++ [Rec.diff ⟨4, 5, [], []⟩]) 1 =
        replayDiffs [Rec.diff ⟨2, 3, [], []⟩] 1 :=
  ⟨(C8_replay_cap.1 [Rec.diff ⟨2, 3, [], []⟩, Rec.diff ⟨4, 5, [], []⟩] 1
      (by decide)).trans (by decide),
   C8_replay_cap.2.1 [Rec.diff ⟨2, 3, [], []⟩] [Rec.diff ⟨4, 5, [], []⟩] 1
     (by decide) (by decide)⟩

/-- Claim C9: `replay_diffs` fails with the empty-replay error exactly
when zero diff records were applied by end of input, which happens exactly
when the log contains no diff record; in particular a snapshot-only log
fails rather than returning a book. -/
theorem C9_empty_replay :
    (∀ (log : List Rec) (limit : Nat),
       replayDiffs log limit = .error emptyReplayMsg ↔
         (replayCore limit log emptyBook 0).2 = 0)
    ∧ (∀ (log : List Rec) (limit : Nat),
       (replayCore limit log emptyBook 0).2 = 0 ↔ diffCount log = 0)
    ∧ replayDiffs [Rec.snap ⟨1, [(10, 1)], [(20, 4)]⟩] 0 = .error emptyReplayMsg := by
  refine ⟨?_, ?_, ?_⟩
  · intro log limit
    by_cases h : (replayCore limit log emptyBook 0).2 = 0 <;> simp [replayDiffs, h]
  · intro log limit
    exact replayCore_applied_zero_iff log limit
  · rfl

/-- Claim C10 fails on the code: a transport error during the snapshot
fetch does terminate the live session — `_get_initial_snapshot` calls
`stop`, which clears `is_running` (ending the session loops); no retry is
attempted. -/
theorem C10_counterexample :
    (getInitialSnapshot ⟨none, true, false, []⟩ .transportError).isRunning = false
    ∧ getInitialSnapshot ⟨none, true, false, []⟩ .transportError =
        stopTracker ⟨none, true, false, []⟩ :=
  ⟨rfl, rfl⟩

/-- Claim C10 (amended): when the snapshot fetch fails with a transport
error, `_get_initial_snapshot` calls `stop`: `is_running` is cleared and
the session terminates; nothing is written and no snapshot id is stored,
and the attempt is not retried. -/
theorem C10_amended_stop_on_fetch_failure (s : SessionState) :
    getInitialSnapshot s .transportError = stopTracker s
    ∧ (getInitialSnapshot s .transportError).isRunning = false
    ∧ (getInitialSnapshot s .transportError).writtenSnapshots = s.writtenSnapshots
    ∧ (getInitialSnapshot s .transportError).snapshotLastUpdateId = s.snapshotLastUpdateId :=
  ⟨rfl, rfl, rfl, rfl⟩

end BinanceOFI
